import Mathlib

/-!
Shallow embedding of the cache, request-validation and ingestion-scheduling
core of the stellar-insights backend (src/backend/src/cache.rs,
src/backend/src/api/corridors.rs, src/backend/src/main.rs), with theorems
checking the natural-language specification against the code.

Conventions:
* Rust `u64` counters are modelled as `Nat` (they only ever grow by 1 from 0,
  so overflow is unreachable in any finite trace considered here).
* `anyhow::Result<T>` is modelled as `Except String T`.
* The external Redis store is modelled as an association list of key/value
  pairs bundled into the manager state, with explicit failure-injection
  parameters standing for transport errors of each individual command.
* `f64` arithmetic in `CacheStats::hit_rate` is modelled with exact rational
  arithmetic (`Rat`).
-/

/-- `CacheStats` from cache.rs lines 8-13: the three monotone counters. -/
structure CacheStats where
  hits : Nat
  misses : Nat
  invalidations : Nat
  deriving Repr, DecidableEq

/-- `CacheStats::hit_rate` from cache.rs lines 16-23, with the `f64`
arithmetic modelled over `Rat`: `0` when `hits + misses = 0`, otherwise
`hits / (hits + misses) * 100`. -/
def CacheStats.hit_rate (s : CacheStats) : Rat :=
  let total := s.hits + s.misses
  if total = 0 then 0
  else ((s.hits : Rat) / (total : Rat)) * 100

/-- The state of `CacheManager` (cache.rs lines 56-63) bundled with the
contents of the external Redis store it talks to: `connected` models
`redis_connection` being `Some`/`None`, `store` models the key/value pairs
currently held by the external store. -/
structure CacheManager where
  connected : Bool
  store : List (String × String)
  hits : Nat
  misses : Nat
  invalidations : Nat
  deriving Repr, DecidableEq

/-- Redis `GET key`: the stored value, if the key is present. -/
def storeGet (store : List (String × String)) (key : String) : Option String :=
  (store.find? (fun e => e.1 == key)).map (fun e => e.2)

/-- Redis `SETEX key ttl value` on the store contents (the TTL itself is not
part of the untimed model). -/
def storePut (store : List (String × String)) (key value : String) :
    List (String × String) :=
  (key, value) :: store.filter (fun e => e.1 != key)

/-- Redis `DEL key`: removes every entry with that key. -/
def storeDel (store : List (String × String)) (key : String) :
    List (String × String) :=
  store.filter (fun e => e.1 != key)

/-- Fuelled glob matcher, used to model the external store's
`KEYS pattern` command: `*` matches any run of characters, `?` any single
character, every other character itself.  The fuel strictly exceeds the sum
of the lengths, and every recursive call shrinks that sum, so the `0` arm is
unreachable. -/
def globMatchAux : Nat → List Char → List Char → Bool
  | 0, _, _ => false
  | _ + 1, [], s => s.isEmpty
  | fuel + 1, '*' :: ps, s =>
      globMatchAux fuel ps s ||
        (match s with
         | [] => false
         | _ :: cs => globMatchAux fuel ('*' :: ps) cs)
  | fuel + 1, '?' :: ps, _ :: cs => globMatchAux fuel ps cs
  | _ + 1, '?' :: _, [] => false
  | fuel + 1, p :: ps, c :: cs => p == c && globMatchAux fuel ps cs
  | _ + 1, _ :: _, [] => false

/-- Modelled from the spec: the external key/value store's glob matching for
`KEYS pattern` (the store itself is an external collaborator, spec section 6:
`KEYS pattern -> list of keys`). -/
def globMatch (pattern s : String) : Bool :=
  globMatchAux (pattern.data.length + s.data.length + 1) pattern.data s.data

/-- Redis `KEYS pattern`: every key in the store matching the glob. -/
def storeKeys (store : List (String × String)) (pattern : String) :
    List String :=
  (store.map Prod.fst).filter (fun k => globMatch pattern k)

/-- `CacheManager::get` from cache.rs lines 101-135.  `fail` injects a
transport error of the `GET` command; `deser` models
`serde_json::from_str::<T>`.  Returns the new state and the Rust return
value. -/
def CacheManager.get {α : Type} (st : CacheManager) (key : String)
    (fail : Bool) (deser : String → Option α) :
    CacheManager × Except String (Option α) :=
  if st.connected then
    if fail then
      ({ st with misses := st.misses + 1 }, Except.ok none)
    else
      match storeGet st.store key with
      | some value =>
          ({ st with hits := st.hits + 1 }, Except.ok (deser value))
      | none =>
          ({ st with misses := st.misses + 1 }, Except.ok none)
  else
    ({ st with misses := st.misses + 1 }, Except.ok none)

/-- `CacheManager::set` from cache.rs lines 138-173.  `ser` models
`serde_json::to_string` (`none` = serialization failure), `fail` injects a
transport error of the `SETEX` command.  Every failure is swallowed. -/
def CacheManager.set {α : Type} (st : CacheManager) (key : String)
    (value : α) (ttl_seconds : Nat) (ser : α → Option String) (fail : Bool) :
    CacheManager × Except String Unit :=
  let _ := ttl_seconds
  if st.connected then
    match ser value with
    | some serialized =>
        if fail then (st, Except.ok ())
        else ({ st with store := storePut st.store key serialized },
              Except.ok ())
    | none => (st, Except.ok ())
  else
    (st, Except.ok ())

/-- `CacheManager::delete` from cache.rs lines 176-197.  `fail` injects a
transport error of the `DEL` command.  `invalidations` is bumped exactly on
an acknowledged `DEL`, independent of whether the key existed. -/
def CacheManager.delete (st : CacheManager) (key : String) (fail : Bool) :
    CacheManager × Except String Unit :=
  if st.connected then
    if fail then (st, Except.ok ())
    else ({ st with
              store := storeDel st.store key,
              invalidations := st.invalidations + 1 },
          Except.ok ())
  else
    (st, Except.ok ())

/-- The `for key in keys` loop body of `CacheManager::delete_pattern`
(cache.rs lines 209-215): each `DEL` result is discarded (`let _ = ...`),
and `invalidations` is bumped once per enumerated key whether or not the
`DEL` succeeded.  `delFail` injects per-key `DEL` transport errors. -/
def delLoop (delFail : String → Bool) : CacheManager → List String → CacheManager
  | st, [] => st
  | st, k :: ks =>
      let st1 := if delFail k then st else { st with store := storeDel st.store k }
      delLoop delFail { st1 with invalidations := st1.invalidations + 1 } ks

/-- `CacheManager::delete_pattern` from cache.rs lines 200-227.  `keysFail`
injects a transport error of the `KEYS` command (in which case nothing is
deleted and the error is swallowed). -/
def CacheManager.delete_pattern (st : CacheManager) (pattern : String)
    (keysFail : Bool) (delFail : String → Bool) :
    CacheManager × Except String Unit :=
  if st.connected then
    if keysFail then (st, Except.ok ())
    else (delLoop delFail st (storeKeys st.store pattern), Except.ok ())
  else
    (st, Except.ok ())

/-- `CacheManager::get_stats` from cache.rs lines 230-236. -/
def CacheManager.get_stats (st : CacheManager) : CacheStats :=
  { hits := st.hits, misses := st.misses, invalidations := st.invalidations }

/-- `CacheManager::reset_stats` from cache.rs lines 239-243. -/
def CacheManager.reset_stats (st : CacheManager) : CacheManager :=
  { st with hits := 0, misses := 0, invalidations := 0 }

/-! Cache key builders, `mod keys` of cache.rs lines 247-294.  Rust `i64`
arguments are modelled as `Int`; `format!` renders them exactly as Lean's
`toString` on `Int` does. -/

namespace keys

def anchor_list (limit offset : Int) : String :=
  s!"anchor:list:{limit}:{offset}"

def anchor_detail (id : String) : String :=
  s!"anchor:detail:{id}"

def anchor_by_account (account : String) : String :=
  s!"anchor:account:{account}"

def anchor_assets (anchor_id : String) : String :=
  s!"anchor:assets:{anchor_id}"

def corridor_list (limit offset : Int) (filters : String) : String :=
  s!"corridor:list:{limit}:{offset}:{filters}"

def corridor_detail (corridor_key : String) : String :=
  s!"corridor:detail:{corridor_key}"

def dashboard_stats : String := "dashboard:stats"

def metrics_overview : String := "metrics:overview"

def anchor_pattern : String := "anchor:*"

def corridor_pattern : String := "corridor:*"

def dashboard_pattern : String := "dashboard:*"

end keys

/-- One cache-manager operation, for trace-level statements about the
counters.  The deserialization/serialization target type is fixed to
`String`; it is irrelevant to the counters. -/
inductive CacheOp where
  | get (key : String) (fail : Bool) (deser : String → Option String)
  | set (key : String) (value : String) (ttl : Nat)
      (ser : String → Option String) (fail : Bool)
  | del (key : String) (fail : Bool)
  | delPattern (pat : String) (keysFail : Bool) (delFail : String → Bool)
  | reset

/-- State transition of one operation (the returned `Result` is dropped). -/
def applyOp (st : CacheManager) : CacheOp → CacheManager
  | .get k f d => (CacheManager.get st k f d).1
  | .set k v t s f => (CacheManager.set st k v t s f).1
  | .del k f => (CacheManager.delete st k f).1
  | .delPattern p kf df => (CacheManager.delete_pattern st p kf df).1
  | .reset => CacheManager.reset_stats st

/-- Run a sequence of operations. -/
def runOps (st : CacheManager) (ops : List CacheOp) : CacheManager :=
  ops.foldl applyOp st

/-- Whether an operation is a cache read attempt. -/
def CacheOp.isGet : CacheOp → Bool
  | .get _ _ _ => true
  | _ => false

/-- Number of cache read attempts in a trace. -/
def countGets (ops : List CacheOp) : Nat :=
  (ops.filter CacheOp.isGet).length

/-! The corridor-detail request path, src/backend/src/api/corridors.rs. -/

/-- `ApiError` from corridors.rs lines 16-21. -/
inductive ApiError where
  | NotFound (msg : String)
  | BadRequest (msg : String)
  | InternalError (msg : String)
  deriving Repr, DecidableEq

/-- `asset_pair.replace(" ", "")` from corridors.rs line 150: replacing
every occurrence of the one-character pattern `" "` by the empty string
removes exactly the space characters. -/
def removeSpaces (s : String) : String :=
  String.mk (s.data.filter (fun c => c != ' '))

/-- Rust `str::split(':')` (corridors.rs lines 165-166) on a character
list: splits at every colon, left to right. -/
def splitOnColon : List Char → List (List Char)
  | [] => [[]]
  | ':' :: cs => [] :: splitOnColon cs
  | c :: cs =>
      match splitOnColon cs with
      | [] => [[c]]
      | p :: ps => (c :: p) :: ps

/-- Rust `str::split("->")` (corridors.rs line 158) on a character list:
splits at every leftmost non-overlapping occurrence of `->`. -/
def splitOnArrow : List Char → List (List Char)
  | [] => [[]]
  | '-' :: '>' :: cs => [] :: splitOnArrow cs
  | c :: cs =>
      match splitOnArrow cs with
      | [] => [[c]]
      | p :: ps => (c :: p) :: ps

/-- Lexicographic comparison of character lists by code point (used only by
the spec-modelled corridor-key normalization below). -/
def charListLe : List Char → List Char → Bool
  | [], _ => true
  | _ :: _, [] => false
  | a :: as, b :: bs =>
      if a.toNat < b.toNat then true
      else if b.toNat < a.toNat then false
      else charListLe as bs

/-- Modelled from the spec: `Corridor::new(..).to_string_key()`
(corridors.rs lines 175-182 call into `models/corridor.rs`, which is not
under src/).  Per the spec's `corridor:detail:<corridor_key>` convention and
the normalization described in the repository's tests, the two `CODE:ISSUER`
halves are ordered alphabetically and joined with `->`. -/
def corridorKeyOf (aCode aIss bCode bIss : String) : String :=
  let a := aCode ++ ":" ++ aIss
  let b := bCode ++ ":" ++ bIss
  if charListLe a.data b.data then a ++ "->" ++ b else b ++ "->" ++ a

/-- `parse_asset_pair` from corridors.rs lines 148-183.  The code's two
early returns for a missing `->` and for a split arity other than two carry
the same message, so they are rendered as the single non-`[a, b]` match
arm. -/
def parse_asset_pair (asset_pair : String) : Except ApiError String :=
  let normalized := removeSpaces asset_pair
  match splitOnArrow normalized.data with
  | [a, b] =>
      match splitOnColon a, splitOnColon b with
      | [ac, ai], [bc, bi] =>
          Except.ok (corridorKeyOf (String.mk ac) (String.mk ai)
            (String.mk bc) (String.mk bi))
      | _, _ =>
          Except.error (ApiError.BadRequest
            "Invalid asset format. Each asset must be in format CODE:ISSUER")
  | _ =>
      Except.error (ApiError.BadRequest
        "Invalid asset pair format. Expected: ASSET_A:ISSUER_A->ASSET_B:ISSUER_B")

/-- The well-formedness condition stated by the claim: after removing
spaces, the string splits on `->` into exactly two parts, each with exactly
one colon (`CODE:ISSUER`). -/
def wellFormedAssetPair (s : String) : Bool :=
  match splitOnArrow (removeSpaces s).data with
  | [a, b] => (splitOnColon a).length == 2 && (splitOnColon b).length == 2
  | _ => false

/-! Frame helper lemmas. -/

theorem get_fst_invalidations {α : Type} (st : CacheManager) (key : String)
    (fail : Bool) (deser : String → Option α) :
    ((CacheManager.get st key fail deser).1).invalidations = st.invalidations := by
  unfold CacheManager.get
  split
  · split
    · rfl
    · split <;> rfl
  · rfl

theorem set_fst_counters {α : Type} (st : CacheManager) (key : String)
    (value : α) (ttl : Nat) (ser : α → Option String) (fail : Bool) :
    ((CacheManager.set st key value ttl ser fail).1).hits = st.hits ∧
    ((CacheManager.set st key value ttl ser fail).1).misses = st.misses ∧
    ((CacheManager.set st key value ttl ser fail).1).invalidations
      = st.invalidations := by
  unfold CacheManager.set
  split
  · split
    · split <;> exact ⟨rfl, rfl, rfl⟩
    · exact ⟨rfl, rfl, rfl⟩
  · exact ⟨rfl, rfl, rfl⟩

theorem delete_fst_hits_misses (st : CacheManager) (key : String) (fail : Bool) :
    ((CacheManager.delete st key fail).1).hits = st.hits ∧
    ((CacheManager.delete st key fail).1).misses = st.misses := by
  unfold CacheManager.delete
  split
  · split <;> exact ⟨rfl, rfl⟩
  · exact ⟨rfl, rfl⟩

theorem delLoop_hits_misses (delFail : String → Bool) :
    ∀ (ks : List String) (st : CacheManager),
      (delLoop delFail st ks).hits = st.hits ∧
      (delLoop delFail st ks).misses = st.misses := by
  intro ks
  induction ks with
  | nil => intro st; exact ⟨rfl, rfl⟩
  | cons k ks ih =>
      intro st
      unfold delLoop
      rcases ih (if delFail k then
          { st with invalidations := st.invalidations + 1 }
        else
          { st with store := storeDel st.store k,
                    invalidations := st.invalidations + 1 }) with ⟨h1, h2⟩
      constructor
      · split at h1 <;> split <;> simp_all
      · split at h2 <;> split <;> simp_all

theorem delLoop_invalidations (delFail : String → Bool) :
    ∀ (ks : List String) (st : CacheManager),
      (delLoop delFail st ks).invalidations = st.invalidations + ks.length := by
  intro ks
  induction ks with
  | nil => intro st; simp [delLoop]
  | cons k ks ih =>
      intro st
      unfold delLoop
      split
      · rw [ih]; simp; omega
      · rw [ih]; simp; omega

theorem delete_pattern_fst_hits_misses (st : CacheManager) (pattern : String)
    (keysFail : Bool) (delFail : String → Bool) :
    ((CacheManager.delete_pattern st pattern keysFail delFail).1).hits = st.hits ∧
    ((CacheManager.delete_pattern st pattern keysFail delFail).1).misses
      = st.misses := by
  unfold CacheManager.delete_pattern
  split
  · split
    · exact ⟨rfl, rfl⟩
    · exact delLoop_hits_misses delFail (storeKeys st.store pattern) st
  · exact ⟨rfl, rfl⟩

theorem get_hits_or_misses {α : Type} (st : CacheManager) (key : String)
    (fail : Bool) (deser : String → Option α) :
    ((CacheManager.get st key fail deser).1.hits = st.hits + 1 ∧
      (CacheManager.get st key fail deser).1.misses = st.misses) ∨
    ((CacheManager.get st key fail deser).1.misses = st.misses + 1 ∧
      (CacheManager.get st key fail deser).1.hits = st.hits) := by
  unfold CacheManager.get
  split
  · split
    · exact Or.inr ⟨rfl, rfl⟩
    · split
      · exact Or.inl ⟨rfl, rfl⟩
      · exact Or.inr ⟨rfl, rfl⟩
  · exact Or.inr ⟨rfl, rfl⟩

theorem applyOp_hits_misses (st : CacheManager) (op : CacheOp)
    (h : op ≠ CacheOp.reset) :
    (applyOp st op).hits + (applyOp st op).misses
      = st.hits + st.misses + (if op.isGet then 1 else 0) := by
  cases op with
  | get k f d =>
      rcases get_hits_or_misses st k f d with ⟨h1, h2⟩ | ⟨h1, h2⟩ <;>
        simp [applyOp, CacheOp.isGet, h1, h2] <;> omega
  | set k v t s f =>
      rcases set_fst_counters st k v t s f with ⟨h1, h2, _⟩
      simp [applyOp, CacheOp.isGet, h1, h2]
  | del k f =>
      rcases delete_fst_hits_misses st k f with ⟨h1, h2⟩
      simp [applyOp, CacheOp.isGet, h1, h2]
  | delPattern p kf df =>
      rcases delete_pattern_fst_hits_misses st p kf df with ⟨h1, h2⟩
      simp [applyOp, CacheOp.isGet, h1, h2]
  | reset => exact absurd rfl h

theorem runOps_hits_misses (ops : List CacheOp) :
    ∀ st : CacheManager, (∀ op ∈ ops, op ≠ CacheOp.reset) →
      (runOps st ops).hits + (runOps st ops).misses
        = st.hits + st.misses + countGets ops := by
  induction ops with
  | nil => intro st _; simp [runOps, countGets]
  | cons op ops ih =>
      intro st h
      have hop : op ≠ CacheOp.reset := h op (List.mem_cons_self op ops)
      have hrest : ∀ o ∈ ops, o ≠ CacheOp.reset :=
        fun o ho => h o (List.mem_cons_of_mem op ho)
      have hstep := applyOp_hits_misses st op hop
      have : runOps st (op :: ops) = runOps (applyOp st op) ops := rfl
      rw [this, ih (applyOp st op) hrest, hstep]
      have : countGets (op :: ops)
          = (if op.isGet then 1 else 0) + countGets ops := by
        simp only [countGets, List.filter]
        cases hg : op.isGet <;> simp [Nat.add_comm]
      rw [this]
      omega

/-! The ledger-ingestion background loop, main.rs lines 126-147. -/

/-- Outcome of one `run_ingestion(5)` call as seen by the loop in main.rs:
`Ok(count)` with the number of ledgers processed, or an error. -/
inductive FetchResult where
  | ok (count : Nat)
  | err
  deriving Repr, DecidableEq

/-- What the loop body does before the next iteration: a timed sleep or a
cooperative `yield_now`. -/
inductive LoopAction where
  | sleepSecs (secs : Nat)
  | yieldNow
  deriving Repr, DecidableEq

/-- One iteration of the ledger-ingestion loop body (main.rs lines 128-146),
paired with the ingestion cursor.  The sleep/yield policy is translated from
main.rs.  Modelled from the spec: the cursor advance itself happens inside
`LedgerIngestionService::run_ingestion`, whose source is not under src/;
per spec section 4.4 the cursor advances by the applied batch size and does
not move on an empty batch or on a fetch/apply error. -/
def ingestStep (cursor : Nat) (r : FetchResult) : Nat × LoopAction :=
  match r with
  | .ok 0 => (cursor, .sleepSecs 5)
  | .ok (n + 1) => (cursor + (n + 1), .yieldNow)
  | .err => (cursor, .sleepSecs 10)

/-- Run the loop over a sequence of per-iteration fetch outcomes, tracking
only the cursor.  Totality of this function models that no outcome is fatal
to the loop. -/
def ingestRun (cursor : Nat) (rs : List FetchResult) : Nat :=
  rs.foldl (fun c r => (ingestStep c r).1) cursor

/-- C3: For every CacheStats value, hit_rate equals hits/(hits+misses)*100,
and equals 0 when hits and misses are both zero; in particular
{hits:80, misses:20} yields 80.0. -/
theorem hit_rate_spec (s : CacheStats) :
    (s.hits + s.misses = 0 → s.hit_rate = 0) ∧
    (s.hits + s.misses ≠ 0 →
      s.hit_rate = (s.hits : Rat) / ((s.hits : Rat) + (s.misses : Rat)) * 100) ∧
    CacheStats.hit_rate ⟨80, 20, 5⟩ = 80 := by
  refine ⟨fun h => ?_, fun h => ?_, by norm_num [CacheStats.hit_rate]⟩
  · simp [CacheStats.hit_rate, h]
  · simp only [CacheStats.hit_rate, if_neg h]
    push_cast
    ring

/-- Witness for `hit_rate_spec` at concrete inputs. -/
theorem hit_rate_spec_witness :
    CacheStats.hit_rate ⟨0, 0, 0⟩ = 0 ∧ CacheStats.hit_rate ⟨80, 20, 5⟩ = 80 :=
  ⟨(hit_rate_spec ⟨0, 0, 0⟩).1 rfl, (hit_rate_spec ⟨80, 20, 5⟩).2.2⟩

/-- `toString` on a `String` is the identity. -/
theorem toString_string_id (s : String) : toString s = s := rfl

/-- C1 counterexample: with the store connected and holding a value under
the requested key that fails to deserialize, `get` returns `Ok(None)` but
increments `hits`, not `misses` — refuting the claim that a
deserialization error increments `misses` by one. -/
theorem get_deser_error_counterexample :
    (CacheManager.get ⟨true, [("k", "notjson")], 0, 0, 0⟩ "k" false
        (fun _ => (none : Option Nat))).2 = Except.ok none ∧
    (CacheManager.get ⟨true, [("k", "notjson")], 0, 0, 0⟩ "k" false
        (fun _ => (none : Option Nat))).1.hits = 1 ∧
    ¬ ((CacheManager.get ⟨true, [("k", "notjson")], 0, 0, 0⟩ "k" false
        (fun _ => (none : Option Nat))).1.misses = 0 + 1) := by
  refine ⟨rfl, rfl, ?_⟩
  intro h
  simp [CacheManager.get, storeGet, List.find?] at h

/-- C1 (amended): `get` always returns `Ok`; on a transport error, a
disconnected store, or the key being absent it returns `None` and increments
`misses` by one; when the store returns a value it increments `hits` by one
(leaving `misses` unchanged) and returns the deserialized value — `None`
when deserialization fails. -/
theorem cache_get_spec {α : Type} (st : CacheManager) (key : String)
    (fail : Bool) (deser : String → Option α) :
    (∃ o, (CacheManager.get st key fail deser).2 = Except.ok o) ∧
    (st.connected = false ∨ fail = true ∨ storeGet st.store key = none →
      (CacheManager.get st key fail deser).2 = Except.ok none ∧
      (CacheManager.get st key fail deser).1.misses = st.misses + 1 ∧
      (CacheManager.get st key fail deser).1.hits = st.hits) ∧
    (∀ v, st.connected = true → fail = false → storeGet st.store key = some v →
      (CacheManager.get st key fail deser).2 = Except.ok (deser v) ∧
      (CacheManager.get st key fail deser).1.hits = st.hits + 1 ∧
      (CacheManager.get st key fail deser).1.misses = st.misses) := by
  unfold CacheManager.get
  cases hc : st.connected with
  | false =>
      refine ⟨⟨none, by simp⟩, fun _ => by simp, fun v hcon _ _ => ?_⟩
      exact absurd hcon (by simp [hc])
  | true =>
      cases hf : fail with
      | true =>
          refine ⟨⟨none, by simp⟩, fun _ => by simp, fun v _ hfa _ => ?_⟩
          exact absurd hfa (by simp)
      | false =>
          cases hg : storeGet st.store key with
          | none =>
              refine ⟨⟨none, by simp⟩, fun _ => by simp,
                fun v _ _ hsome => absurd hsome (by simp)⟩
          | some v0 =>
              refine ⟨⟨deser v0, by simp⟩, fun habs => ?_,
                fun v _ _ hsome => ?_⟩
              · rcases habs with h | h | h
                · exact absurd h (by simp [hc])
                · exact absurd h (by simp)
                · exact absurd h (by simp)
              · injection hsome with hv
                subst hv
                simp

/-- Witness for `cache_get_spec`: the disconnected case and the
found-and-deserialized case at concrete inputs. -/
theorem cache_get_spec_witness :
    ((CacheManager.get ⟨false, [], 0, 0, 0⟩ "k" false
        (fun s => some s)).1.misses = 0 + 1) ∧
    ((CacheManager.get ⟨true, [("k", "v")], 3, 4, 5⟩ "k" false
        (fun s => some s)).2 = Except.ok (some "v")) :=
  ⟨((cache_get_spec ⟨false, [], 0, 0, 0⟩ "k" false
      (fun s => some s)).2.1 (Or.inl rfl)).2.1,
   ((cache_get_spec ⟨true, [("k", "v")], 3, 4, 5⟩ "k" false
      (fun s => some s)).2.2 "v" rfl rfl rfl).1⟩

/-- C4: `set` and `delete` always return `Ok` (serialization failures, store
write and DEL transport errors, and a disconnected store are swallowed);
`delete` increments `invalidations` exactly when the store acknowledges the
DEL attempt (regardless of whether the key existed), leaving it unchanged on
a DEL error or when the store is disconnected. -/
theorem cache_set_delete_spec {α : Type} (st : CacheManager) (key : String)
    (value : α) (ttl : Nat) (ser : α → Option String) (fail : Bool) :
    (CacheManager.set st key value ttl ser fail).2 = Except.ok () ∧
    (CacheManager.delete st key fail).2 = Except.ok () ∧
    (st.connected = true → fail = false →
      (CacheManager.delete st key fail).1.invalidations
        = st.invalidations + 1) ∧
    (st.connected = false ∨ fail = true →
      (CacheManager.delete st key fail).1.invalidations = st.invalidations) := by
  refine ⟨?_, ?_, fun hc hf => ?_, fun habs => ?_⟩
  · unfold CacheManager.set
    split
    · split
      · split <;> rfl
      · rfl
    · rfl
  · unfold CacheManager.delete
    split
    · split <;> rfl
    · rfl
  · simp [CacheManager.delete, hc, hf]
  · unfold CacheManager.delete
    rcases habs with h | h <;> simp [h]

/-- Witness for `cache_set_delete_spec` at concrete inputs. -/
theorem cache_set_delete_spec_witness :
    (CacheManager.delete ⟨true, [], 0, 0, 0⟩ "k" false).1.invalidations
      = 0 + 1 ∧
    (CacheManager.delete ⟨false, [], 0, 0, 7⟩ "k" false).1.invalidations = 7 ∧
    (CacheManager.set ⟨true, [], 0, 0, 0⟩ "k" "v" 60 (fun v => some v)
      false).2 = Except.ok () :=
  ⟨(cache_set_delete_spec ⟨true, [], 0, 0, 0⟩ "k" "v" 60 (fun v => some v)
      false).2.2.1 rfl rfl,
   (cache_set_delete_spec ⟨false, [], 0, 0, 7⟩ "k" "v" 60 (fun v => some v)
      false).2.2.2 (Or.inl rfl),
   (cache_set_delete_spec ⟨true, [], 0, 0, 0⟩ "k" "v" 60 (fun v => some v)
      false).1⟩

/-- C5: starting from a freshly reset state, for every trace of cache
operations containing no further reset, `hits + misses` equals the number of
`get` calls in the trace; moreover each `get` increments exactly one of
`hits`/`misses` by exactly one. -/
theorem hits_misses_accounting (st : CacheManager) (ops : List CacheOp)
    (hnr : ∀ op ∈ ops, op ≠ CacheOp.reset) :
    (runOps (CacheManager.reset_stats st) ops).hits
        + (runOps (CacheManager.reset_stats st) ops).misses = countGets ops ∧
    (∀ (st1 : CacheManager) (k : String) (f : Bool)
        (d : String → Option String),
      ((CacheManager.get st1 k f d).1.hits = st1.hits + 1 ∧
        (CacheManager.get st1 k f d).1.misses = st1.misses) ∨
      ((CacheManager.get st1 k f d).1.misses = st1.misses + 1 ∧
        (CacheManager.get st1 k f d).1.hits = st1.hits)) := by
  refine ⟨?_, fun st1 k f d => get_hits_or_misses st1 k f d⟩
  have h := runOps_hits_misses ops (CacheManager.reset_stats st) hnr
  simpa [CacheManager.reset_stats] using h

/-- Witness for `hits_misses_accounting` at a concrete three-operation
trace containing two gets. -/
theorem hits_misses_accounting_witness :
    (runOps (CacheManager.reset_stats ⟨true, [("k", "v")], 9, 9, 9⟩)
          [CacheOp.get "k" false (fun s => some s),
           CacheOp.set "a" "v" 1 (fun v => some v) false,
           CacheOp.get "zz" false (fun s => some s)]).hits
      + (runOps (CacheManager.reset_stats ⟨true, [("k", "v")], 9, 9, 9⟩)
          [CacheOp.get "k" false (fun s => some s),
           CacheOp.set "a" "v" 1 (fun v => some v) false,
           CacheOp.get "zz" false (fun s => some s)]).misses
      = countGets
          [CacheOp.get "k" false (fun s => some s),
           CacheOp.set "a" "v" 1 (fun v => some v) false,
           CacheOp.get "zz" false (fun s => some s)] :=
  (hits_misses_accounting ⟨true, [("k", "v")], 9, 9, 9⟩
      [CacheOp.get "k" false (fun s => some s),
       CacheOp.set "a" "v" 1 (fun v => some v) false,
       CacheOp.get "zz" false (fun s => some s)]
      (by intro op hop
          simp only [List.mem_cons, List.not_mem_nil, or_false] at hop
          rcases hop with rfl | rfl | rfl <;> simp)).1

/-- C9 (frame conditions): `set` leaves all three counters unchanged on every
path; `get` leaves `invalidations` unchanged on every path; `delete` and
`delete_pattern` leave `hits` and `misses` unchanged on every path. -/
theorem counters_frame_spec {α β : Type} (st : CacheManager) (key : String)
    (value : α) (ttl : Nat) (ser : α → Option String) (fail : Bool)
    (deser : String → Option β) (pattern : String) (keysFail : Bool)
    (delFail : String → Bool) :
    (CacheManager.set st key value ttl ser fail).1.hits = st.hits ∧
    (CacheManager.set st key value ttl ser fail).1.misses = st.misses ∧
    (CacheManager.set st key value ttl ser fail).1.invalidations
      = st.invalidations ∧
    (CacheManager.get st key fail deser).1.invalidations = st.invalidations ∧
    (CacheManager.delete st key fail).1.hits = st.hits ∧
    (CacheManager.delete st key fail).1.misses = st.misses ∧
    (CacheManager.delete_pattern st pattern keysFail delFail).1.hits
      = st.hits ∧
    (CacheManager.delete_pattern st pattern keysFail delFail).1.misses
      = st.misses := by
  rcases set_fst_counters st key value ttl ser fail with ⟨s1, s2, s3⟩
  rcases delete_fst_hits_misses st key fail with ⟨d1, d2⟩
  rcases delete_pattern_fst_hits_misses st pattern keysFail delFail
    with ⟨p1, p2⟩
  exact ⟨s1, s2, s3, get_fst_invalidations st key fail deser, d1, d2, p1, p2⟩

theorem delLoop_store_all_ok :
    ∀ (ks : List String) (st : CacheManager),
      (delLoop (fun _ => false) st ks).store = ks.foldl storeDel st.store := by
  intro ks
  induction ks with
  | nil => intro st; rfl
  | cons k ks ih =>
      intro st
      show (delLoop (fun _ => false)
        { st with store := storeDel st.store k,
                  invalidations := st.invalidations + 1 } ks).store
        = ks.foldl storeDel (storeDel st.store k)
      exact ih _

theorem foldl_storeDel_eq_filter :
    ∀ (ks : List String) (s0 : List (String × String)),
      ks.foldl storeDel s0 = s0.filter (fun e => !(ks.contains e.1)) := by
  intro ks
  induction ks with
  | nil => intro s0; simp
  | cons k ks ih =>
      intro s0
      have hstep : (k :: ks).foldl storeDel s0
          = ks.foldl storeDel (storeDel s0 k) := rfl
      rw [hstep, ih, storeDel, List.filter_filter]
      apply List.filter_congr
      intro e _
      simp only [List.contains_cons, Bool.not_or, Bool.and_comm]
      rfl

theorem storeKeys_contains_eq_globMatch (st : CacheManager) (pattern : String) :
    ∀ e ∈ st.store, (storeKeys st.store pattern).contains e.1
      = globMatch pattern e.1 := by
  intro e he
  have hmem_iff : e.1 ∈ storeKeys st.store pattern ↔
      globMatch pattern e.1 = true := by
    constructor
    · intro hm
      exact (List.mem_filter.1 hm).2
    · intro hg
      exact List.mem_filter.2 ⟨List.mem_map.2 ⟨e, he, rfl⟩, hg⟩
  cases hgm : globMatch pattern e.1 with
  | true =>
      have hmem := hmem_iff.2 hgm
      exact (List.elem_iff.2 hmem : _)
  | false =>
      cases hcn : (storeKeys st.store pattern).contains e.1 with
      | false => rfl
      | true =>
          have hmem : e.1 ∈ storeKeys st.store pattern := List.elem_iff.1 hcn
          rw [hmem_iff.1 hmem] at hgm
          exact absurd hgm (by simp)

/-- C2 counterexample: with the store connected and holding one key matching
the pattern, but the DEL transport failing, `delete_pattern` removes nothing
yet increments `invalidations` by one — refuting the claim that
`invalidations` grows by exactly the number of keys actually removed. -/
theorem delete_pattern_counterexample :
    (CacheManager.delete_pattern
        ⟨true, [("anchor:list:50:0", "v")], 0, 0, 0⟩
        "anchor:*" false (fun _ => true)).1.store
      = [("anchor:list:50:0", "v")] ∧
    (CacheManager.delete_pattern
        ⟨true, [("anchor:list:50:0", "v")], 0, 0, 0⟩
        "anchor:*" false (fun _ => true)).1.invalidations = 1 := by
  exact ⟨rfl, rfl⟩

/-- C2 (amended): when the store is connected and the KEYS enumeration
succeeds, `delete_pattern` attempts a DEL for every key currently matching
the pattern, leaves keys not matching the pattern untouched, and increments
`invalidations` once per enumerated key — i.e. once per delete attempt,
regardless of DEL success.  When every DEL succeeds (second conjunct) the
final store holds exactly the non-matching entries, so `invalidations` then
grows by exactly the number of keys removed. -/
theorem delete_pattern_spec (st : CacheManager) (pattern : String)
    (h : st.connected = true) :
    (CacheManager.delete_pattern st pattern false (fun _ => false)).2
      = Except.ok () ∧
    (CacheManager.delete_pattern st pattern false (fun _ => false)).1.store
      = st.store.filter (fun e => !(globMatch pattern e.1)) ∧
    (∀ delFail : String → Bool,
      (CacheManager.delete_pattern st pattern false delFail).1.invalidations
        = st.invalidations + (storeKeys st.store pattern).length) := by
  refine ⟨by simp [CacheManager.delete_pattern, h], ?_, fun delFail => ?_⟩
  · have hunf : (CacheManager.delete_pattern st pattern false
        (fun _ => false)).1
        = delLoop (fun _ => false) st (storeKeys st.store pattern) := by
      simp [CacheManager.delete_pattern, h]
    rw [hunf, delLoop_store_all_ok, foldl_storeDel_eq_filter]
    apply List.filter_congr
    intro e he
    rw [storeKeys_contains_eq_globMatch st pattern e he]
  · have hunf : (CacheManager.delete_pattern st pattern false delFail).1
        = delLoop delFail st (storeKeys st.store pattern) := by
      simp [CacheManager.delete_pattern, h]
    rw [hunf, delLoop_invalidations]

/-- Witness for `delete_pattern_spec`: a connected store with one matching
and one non-matching key; the matching key is removed and `invalidations`
grows by one. -/
theorem delete_pattern_spec_witness :
    (CacheManager.delete_pattern
        ⟨true, [("anchor:a", "1"), ("corridor:b", "2")], 0, 0, 0⟩
        "anchor:*" false (fun _ => false)).1.store = [("corridor:b", "2")] ∧
    (CacheManager.delete_pattern
        ⟨true, [("anchor:a", "1"), ("corridor:b", "2")], 0, 0, 0⟩
        "anchor:*" false (fun _ => false)).1.invalidations = 1 := by
  have h := delete_pattern_spec
    ⟨true, [("anchor:a", "1"), ("corridor:b", "2")], 0, 0, 0⟩ "anchor:*" rfl
  exact ⟨by rw [h.2.1]; rfl, by rw [h.2.2 (fun _ => false)]; rfl⟩

/-- C7: the cache key builders are deterministic, order-sensitive string
builders producing the bit-exact key-space convention, the fixed keys are
`dashboard:stats` and `metrics:overview`, and the bulk-invalidation globs
are `anchor:*`, `corridor:*`, `dashboard:*`. -/
theorem cache_key_builders_spec :
    (∀ limit offset : Int,
      keys.anchor_list limit offset =
        "anchor:list:" ++ toString limit ++ ":" ++ toString offset) ∧
    (∀ (limit offset : Int) (filters : String),
      keys.corridor_list limit offset filters =
        "corridor:list:" ++ toString limit ++ ":" ++ toString offset ++ ":"
          ++ filters) ∧
    keys.anchor_list 50 0 = "anchor:list:50:0" ∧
    keys.corridor_list 10 0 "x" = "corridor:list:10:0:x" ∧
    keys.dashboard_stats = "dashboard:stats" ∧
    keys.metrics_overview = "metrics:overview" ∧
    keys.anchor_pattern = "anchor:*" ∧
    keys.corridor_pattern = "corridor:*" ∧
    keys.dashboard_pattern = "dashboard:*" := by
  refine ⟨fun limit offset => ?_, fun limit offset filters => ?_,
    rfl, rfl, rfl, rfl, rfl, rfl, rfl⟩
  · simp [keys.anchor_list, String.append_assoc, toString_string_id,
      String.append_empty]
  · simp [keys.corridor_list, String.append_assoc, toString_string_id,
      String.append_empty]

/-- Helper: a trace of empty batches and errors never advances the cursor. -/
theorem ingestRun_no_advance :
    ∀ (rs : List FetchResult) (cursor : Nat),
      (∀ r ∈ rs, r = FetchResult.ok 0 ∨ r = FetchResult.err) →
      ingestRun cursor rs = cursor := by
  intro rs
  induction rs with
  | nil => intro c _; rfl
  | cons r rs ih =>
      intro c h
      have hr := h r (List.mem_cons_self r rs)
      have hrest : ∀ x ∈ rs, x = FetchResult.ok 0 ∨ x = FetchResult.err :=
        fun x hx => h x (List.mem_cons_of_mem r hx)
      rcases hr with rfl | rfl
      · exact ih c hrest
      · exact ih c hrest

/-- C6: in every iteration of the catch-up loop, an empty batch leaves the
cursor in place and sleeps 5 seconds; a non-empty batch advances the cursor
by the batch size and yields cooperatively without sleeping; a fetch/apply
error leaves the cursor in place and sleeps a 10-second backoff (and, the
step being a total function, is never fatal); consequently a trace of only
empty batches and errors never advances the cursor. -/
theorem catchup_loop_spec (cursor : Nat) :
    ingestStep cursor FetchResult.err = (cursor, LoopAction.sleepSecs 10) ∧
    ingestStep cursor (FetchResult.ok 0) = (cursor, LoopAction.sleepSecs 5) ∧
    (∀ n, 0 < n →
      ingestStep cursor (FetchResult.ok n) = (cursor + n, LoopAction.yieldNow)) ∧
    (∀ rs : List FetchResult,
      (∀ r ∈ rs, r = FetchResult.ok 0 ∨ r = FetchResult.err) →
      ingestRun cursor rs = cursor) := by
  refine ⟨rfl, rfl, fun n hn => ?_, fun rs h => ingestRun_no_advance rs cursor h⟩
  cases n with
  | zero => omega
  | succ m => rfl

/-- Witness for `catchup_loop_spec` at a concrete cursor, batch size and
trace. -/
theorem catchup_loop_spec_witness :
    ingestStep 7 (FetchResult.ok 3) = (10, LoopAction.yieldNow) ∧
    ingestRun 7 [FetchResult.ok 0, FetchResult.err] = 7 :=
  ⟨(catchup_loop_spec 7).2.2.1 3 (by decide),
   (catchup_loop_spec 7).2.2.2 [FetchResult.ok 0, FetchResult.err] (by decide)⟩

/-- C8: `parse_asset_pair` returns a `BadRequest` client error exactly when
the composite key is malformed — when, after removing spaces, the string
does not split on `->` into exactly two parts each with exactly one colon —
and returns `Ok` with a corridor key for every well-formed input. -/
theorem parse_asset_pair_spec (s : String) :
    ((∃ msg, parse_asset_pair s = Except.error (ApiError.BadRequest msg)) ↔
      wellFormedAssetPair s = false) ∧
    (wellFormedAssetPair s = true → ∃ k, parse_asset_pair s = Except.ok k) := by
  unfold parse_asset_pair wellFormedAssetPair
  cases hsp : splitOnArrow (removeSpaces s).data with
  | nil => simp [hsp]
  | cons a t =>
      cases t with
      | nil => simp [hsp]
      | cons b t2 =>
          cases t2 with
          | cons c t3 => simp [hsp]
          | nil =>
              cases hca : splitOnColon a with
              | nil => simp [hsp, hca]
              | cons x tx =>
                  cases tx with
                  | nil => simp [hsp, hca]
                  | cons y ty =>
                      cases ty with
                      | cons z tz => simp [hsp, hca]
                      | nil =>
                          cases hcb : splitOnColon b with
                          | nil => simp [hsp, hca, hcb]
                          | cons u tu =>
                              cases tu with
                              | nil => simp [hsp, hca, hcb]
                              | cons v tv =>
                                  cases tv with
                                  | cons w tw => simp [hsp, hca, hcb]
                                  | nil => simp [hsp, hca, hcb]

/-- Witness for `parse_asset_pair_spec`: a well-formed and a malformed
concrete composite key. -/
theorem parse_asset_pair_spec_witness :
    (∃ k, parse_asset_pair "USDC:issuer1->EURC:issuer2" = Except.ok k) ∧
    (∃ msg, parse_asset_pair "USDC-EURC"
      = Except.error (ApiError.BadRequest msg)) :=
  ⟨(parse_asset_pair_spec "USDC:issuer1->EURC:issuer2").2 (by decide),
   (parse_asset_pair_spec "USDC-EURC").1.mpr (by decide)⟩

/-- Helper: removing spaces is idempotent. -/
theorem removeSpaces_idem (s : String) :
    removeSpaces (removeSpaces s) = removeSpaces s := by
  unfold removeSpaces
  apply congrArg String.mk
  show ((s.data.filter fun c => c != ' ').filter fun c => c != ' ')
    = s.data.filter fun c => c != ' '
  rw [List.filter_filter]
  apply List.filter_congr
  intro a _
  exact Bool.and_self _

/-- C10: `parse_asset_pair` is insensitive to spaces: applying it to a
string or to the same string with every space character removed yields the
same result. -/
theorem parse_asset_pair_space_insensitive (s : String) :
    parse_asset_pair s = parse_asset_pair (removeSpaces s) := by
  unfold parse_asset_pair
  rw [removeSpaces_idem]
